import Mathlib

/-!
Verification development for the go-secret interactive controller
(internal/ui/model.go, second — authoritative — declaration block) and the
audit logger (internal/audit/audit.go).

Conventions of the shallow embedding:
* Go strings are Lean `String`s, Go byte slices are `List Nat`, Go `int` is
  `Int`, `time.Time`/`time.Duration` are `Int` seconds passed explicitly
  (`now`), and a Go `nil` slice/pointer is `Option.none`.
* `map[string]*FolderItem` is an association list with unique keys; the
  iteration order of a Go map is irrelevant here because every consumer
  either looks up a single key or sorts the collected values.
* `gcp.Secret` carries only its `Name` into the tree logic, so secrets are
  embedded as their name strings; the `Secret` back-reference of a leaf
  becomes the originating name.
-/

set_option autoImplicit false

namespace GoSecret

/-- The `View` enumeration (model.go:2046-2068). -/
inductive View where
  | projectPrompt
  | list
  | detail
  | create
  | addVersion
  | delete
  | generate
  | config
  | configMenu
  | configBasic
  | configTemplates
  | configTemplateEdit
  | configRecentProjects
  | configSecurity
  | auditLog
  | filter
  | reveal
  | projectSwitch
  | locked
deriving DecidableEq, Repr

/-- `FolderItem` (model.go:2071-2078): a node of the namespace tree.
`secret` is the back-reference to the originating secret (its name);
children are an association list standing for the Go child map. -/
inductive FolderItem where
  | node (name : String) (fullPath : String) (isFolder : Bool)
      (secret : Option String) (children : List (String × FolderItem))
      (depth : Nat) : FolderItem
deriving Repr

def FolderItem.name : FolderItem → String
  | .node n _ _ _ _ _ => n

def FolderItem.fullPath : FolderItem → String
  | .node _ f _ _ _ _ => f

def FolderItem.isFolder : FolderItem → Bool
  | .node _ _ b _ _ _ => b

def FolderItem.secret : FolderItem → Option String
  | .node _ _ _ s _ _ => s

def FolderItem.children : FolderItem → List (String × FolderItem)
  | .node _ _ _ _ c _ => c

def FolderItem.depth : FolderItem → Nat
  | .node _ _ _ _ _ d => d

/-- Replace the children map of a node, keeping every other field. -/
def FolderItem.withChildren : FolderItem → List (String × FolderItem) → FolderItem
  | .node n f b s _ d, c => .node n f b s c d

/-- Apply `f` to the entry stored at key `p` (the Go
`current.Children[part] = ...` update on an existing key). -/
def assocUpdate (l : List (String × FolderItem)) (p : String)
    (f : FolderItem → FolderItem) : List (String × FolderItem) :=
  l.map fun kv => if kv.1 = p then (kv.1, f kv.2) else kv

/-- Fuel-driven scanning loop of `strings.Split`: at each position either
the (non-empty) separator matches and is consumed, or one character moves
to the accumulator.  The fuel bounds the scanned length, so the loop is
structural and kernel-computable. -/
def splitLoop (sep : List Char) : Nat → List Char → List Char → List (List Char)
  | _ + 1, [], acc => [acc.reverse]
  | fuel + 1, c :: rest, acc =>
    if sep.isPrefixOf (c :: rest) then
      acc.reverse :: splitLoop sep fuel (List.drop sep.length (c :: rest)) []
    else splitLoop sep fuel rest (c :: acc)
  | 0, s, acc => [acc.reverse ++ s]

/-- Go `strings.Split`.  An empty separator explodes the string into its
characters; otherwise the string is cut at each non-overlapping
occurrence of the separator.  Fuel `length + 1` suffices: every step of
`splitLoop` consumes at least one scanned character. -/
def stringSplit (s sep : String) : List String :=
  if sep = "" then s.data.map fun c => String.mk [c]
  else (splitLoop sep.data (s.data.length + 1) s.data []).map String.mk

/-- The inner loop of `buildFolderTree` (model.go:3827-3846) for one secret:
walk the remaining `rest` of the split segments, with `j` the index of the
head of `rest` inside the full `parts` list.  Empty segments are skipped
(`continue`) without descending; a missing child is created with
`isFolder = j < len(parts)-1` and, for a final segment, the secret
back-reference; then the walk descends into the (possibly just created)
child.  An existing child is never re-marked: only its subtree is updated. -/
def insertParts (sep secretName : String) (parts : List String) :
    List String → Nat → FolderItem → FolderItem
  | [], _, node => node
  | p :: rest, j, node =>
    if p = "" then insertParts sep secretName parts rest (j + 1) node
    else
      let children :=
        if (node.children.lookup p).isSome then node.children
        else
          let isFolder : Bool := decide (j < parts.length - 1)
          node.children ++
            [(p, FolderItem.node p (String.intercalate sep (parts.take (j + 1)))
                isFolder (if isFolder then none else some secretName) [] j)]
      node.withChildren
        (assocUpdate children p (insertParts sep secretName parts rest (j + 1)))

/-- `buildFolderTree` (model.go:3815-3848): rebuild the tree wholesale from
the flat secret list, splitting each name on the configured separator. -/
def buildFolderTree (sep : String) (secrets : List String) : FolderItem :=
  secrets.foldl
    (fun t s =>
      let parts := stringSplit s sep
      insertParts sep s parts parts 0 t)
    (FolderItem.node "" "" false none [] 0)

/-- Path navigation loop of `updateDisplayItems` (model.go:3855-3862):
walk the current path, `none` when a segment is absent. -/
def navigate : FolderItem → List String → Option FolderItem
  | t, [] => some t
  | t, p :: ps =>
    match t.children.lookup p with
    | some c => navigate c ps
    | none => none

/-- Contiguous-occurrence check on character lists. -/
def charsContain : List Char → List Char → Bool
  | s, sub =>
    if sub.isPrefixOf s then true
    else
      match s with
      | [] => false
      | _ :: t => charsContain t sub

/-- Go `strings.Contains` on the embedded strings. -/
def strContains (s sub : String) : Bool :=
  charsContain s.data sub.data

/-- Go `strings.ToLower` (character-wise, which covers the ASCII range
the identifiers use). -/
def strToLower (s : String) : String :=
  String.mk (s.data.map Char.toLower)

/-- The comparator of `updateDisplayItems` (model.go:3877-3882): folders
order before leaves, then lexicographically by name. -/
def itemLE (a b : FolderItem) : Bool :=
  if a.isFolder ≠ b.isFolder then a.isFolder else a.name ≤ b.name

def insertSorted (x : FolderItem) : List FolderItem → List FolderItem
  | [] => [x]
  | y :: t => if itemLE x y then x :: y :: t else y :: insertSorted x t

/-- The `sort.Slice` call of `updateDisplayItems`: Go's slice sort is an
unspecified comparison sort, and the comparator is a strict total order
on the children of one directory (their names are distinct map keys), so
every comparison sort produces the same list; an insertion sort keeps the
embedding kernel-computable. -/
def sortItems : List FolderItem → List FolderItem
  | [] => []
  | x :: t => insertSorted x (sortItems t)

/-- Collect, filter and sort the children of the node addressed by the
current path (model.go:3864-3882). -/
def displayOf (tree : FolderItem) (path : List String) (filterText : String) :
    Option (List FolderItem) :=
  match navigate tree path with
  | none => none
  | some cur =>
    some (sortItems ((cur.children.map Prod.snd).filter fun it =>
        filterText = "" || strContains (strToLower it.name) (strToLower filterText)))

/-- Clipboard settings. Modelled from the spec: the `internal/config`
package is not under `src/`; §6 lists the clipboard auto-clear flag and
timeout it supplies, which `model.go` reads as
`config.Clipboard.AutoClear` / `config.Clipboard.TimeoutSeconds`. -/
structure ClipboardConfig where
  autoClear : Bool
  timeoutSeconds : Int
deriving DecidableEq, Repr

/-- Session settings. Modelled from the spec: the `internal/config`
package is not under `src/`; §6 lists the inactivity timeout (minutes)
and lock-on-timeout flag, read as `config.Session.InactivityTimeout` /
`config.Session.LockOnTimeout`. -/
structure SessionConfig where
  inactivityTimeout : Int
  lockOnTimeout : Bool
deriving DecidableEq, Repr

/-- A code template (`config.Template`, title and code). Modelled from the
spec and the call sites in `model.go` (`tpl.Title`, `tpl.Code`). -/
structure Template where
  title : String
  code : String
deriving DecidableEq, Repr

/-- The slice of the configuration that the embedded handlers read.
Modelled from the spec (§6) and the `m.config.…` call sites in `model.go`;
fields the embedded handlers never touch (audit file settings, recent
projects, …) are omitted. -/
structure Config where
  projectID : String
  folderSeparator : String
  clipboard : ClipboardConfig
  session : SessionConfig
  templates : List Template
  secretLocations : List String
deriving DecidableEq, Repr

/-- The controller state (`Model`, model.go:2081-2184), restricted to the
fields the verified behavior reads or writes.  Omitted on purpose:
the bubbletea widget objects (`textinput.Model`, `textarea.Model`,
`viewport.Model`), the GCP client and context, the styles/keymap, and the
audit-log viewer fields — none of them is read by the clipboard, vault,
session, tree or completion-handling logic under verification.
`auditEnabled` stands for `m.auditLogger != nil`.
`releasedBuffers` is a ghost field: it records, newest first, the contents
of each revealed-secret buffer at the exact moment the Go code drops its
reference (`m.revealedValue = nil`), so that "bytes were zeroed before the
reference was released" is observable in the pure embedding. -/
structure Model where
  config : Config
  view : View
  width : Int
  height : Int
  secrets : List String
  folderTree : FolderItem
  currentPath : List String
  displayItems : List FolderItem
  cursor : Int
  listOffset : Int
  filterText : String
  selectedSecret : Option String
  versions : List String
  versionCursor : Int
  revealedValue : Option (List Nat)
  revealVersion : String
  createLocationIdx : Int
  createAddingLoc : Bool
  createEditorMode : Bool
  templateCursor : Int
  generatedCode : String
  configMenuCursor : Int
  deleteConfirm : Bool
  statusMsg : String
  statusErr : Bool
  loading : Bool
  loadingMsg : String
  clipboardClearAt : Int
  clipboardActive : Bool
  auditEnabled : Bool
  lastActivity : Int
  sessionLocked : Bool
  lockedPrevView : View
  projectSwitchPrevView : View
  projectSwitchCursor : Int
  releasedBuffers : List (List Nat)

instance : Inhabited FolderItem := ⟨.node "" "" false none [] 0⟩

/-- The all-zero copy of a byte buffer (the effect of the Go loop
`for i := range b { b[i] = 0 }`). -/
def zeroBytes (b : List Nat) : List Nat := b.map fun _ => 0

/-- `clearRevealedValue` (model.go:2469-2477): zero every byte, then drop
the reference.  The dropped buffer's final contents go to the ghost
`releasedBuffers` list. -/
def Model.clearRevealedValue (m : Model) : Model :=
  match m.revealedValue with
  | none => m
  | some b =>
    { m with revealedValue := none, releasedBuffers := zeroBytes b :: m.releasedBuffers }

/-- `setRevealedValue` (model.go:2460-2466): clear the old buffer first,
then store a fresh copy of the input. -/
def Model.setRevealedValue (m : Model) (value : List Nat) : Model :=
  { m.clearRevealedValue with revealedValue := some value }

/-- `getRevealedValueString` (model.go:2481-2486).  `string(bytes)` is
embedded code-point-wise, which is faithful for the emptiness property. -/
def Model.getRevealedValueString (m : Model) : String :=
  match m.revealedValue with
  | none => ""
  | some b => String.mk (b.map Char.ofNat)

/-- The inline secure-clear at model.go:2916-2919 and 3782-3785 (zero loop
followed by `m.revealedValue = nil`): observably identical to
`clearRevealedValue`, including when the buffer is already nil. -/
def Model.zeroReleaseInline (m : Model) : Model := m.clearRevealedValue

/-- `Model.buildFolderTree` method (model.go:3816). -/
def Model.rebuildFolderTree (m : Model) : Model :=
  { m with folderTree := buildFolderTree m.config.folderSeparator m.secrets }

/-- `updateDisplayItems` (model.go:3851-3896).  The display list is
emptied first; if a path segment is absent the Go code returns early, so
the cursor and scroll offset keep their old values.  Otherwise the
children are filtered, sorted, the cursor clamped and the offset reset. -/
def Model.updateDisplayItems (m : Model) : Model :=
  let m0 := { m with displayItems := [] }
  match displayOf m.folderTree m.currentPath m.filterText with
  | none => m0
  | some items =>
    let c1 : Int := if m.cursor ≥ (items.length : Int) then (items.length : Int) - 1 else m.cursor
    let c2 : Int := if c1 < 0 then 0 else c1
    { m0 with displayItems := items, cursor := c2, listOffset := 0 }

/-- Result field of an audit wrapper call (`audit.ResultSuccess` /
`audit.ResultFailure`). -/
inductive CallResult where
  | success
  | failure
deriving DecidableEq, Repr

/-- One call to an `audit.Logger` convenience wrapper, with the arguments
the controller passes.  `sessionLock`/`sessionUnlock` are modelled from
the spec (§4.5: they emit `SESSION_LOCK`/`SESSION_UNLOCK` events): their
wrapper bodies are not under `src/`, only their call sites in
`model.go:2749` and `model.go:3654`. -/
inductive AuditCall where
  | sessionStart (pid : String)
  | secretList (pid : String) (count : Int) (result : CallResult) (err : String)
  | secretCreate (pid name : String) (result : CallResult) (err : String)
  | secretDelete (pid name : String) (result : CallResult) (err : String)
  | versionAdd (pid name version : String) (result : CallResult) (err : String)
  | secretReveal (pid name version : String) (result : CallResult) (err : String)
  | secretCopy (pid name version : String) (result : CallResult) (err : String)
  | clipboardClear
  | sessionLock (pid reason : String)
  | sessionUnlock (pid : String)
deriving DecidableEq, Repr

/-- Observable effects of one `Update` step: the returned `tea.Cmd`s
(tasks handed to the runtime) plus the direct side effects the handler
performs itself (OS clipboard writes/clears and audit-logger calls). -/
inductive Eff where
  | quit
  | blink
  | clipboardTickTask
  | clearClipboardTask
  | sessionTickTask
  | loadSecretsTask
  | loadVersionsTask (name : String)
  | accessSecretTask (name version : String)
  | copySecretTask (name version : String)
  | initializeClientTask
  | clipboardWrite (text : String)
  | clipboardClearNow
  | audit (c : AuditCall)
deriving DecidableEq, Repr

/-- The messages `Update` handles (model.go:2186-2234 plus
`tea.KeyMsg`/`tea.MouseMsg`/`tea.WindowSizeMsg`).  A key event is
identified by its `msg.String()` rendering, errors by their text. -/
inductive Msg where
  | key (k : String)
  | mouse
  | windowSize (w h : Int)
  | clientInitialized (err : Option String)
  | secretsLoaded (secrets : List String) (err : Option String)
  | versionsLoaded (versions : List String) (err : Option String)
  | secretCreated (name : String) (err : Option String)
  | secretDeleted (name : String) (err : Option String)
  | versionAdded (version : String) (err : Option String)
  | secretValue (secretName : String) (value : List Nat) (version : String) (err : Option String)
  | secretCopied (secretName : String) (version : String) (err : Option String)
  | clipboardTick
  | clipboardCleared
  | sessionTimeout
deriving DecidableEq, Repr

instance : Inhabited Template := ⟨⟨"", ""⟩⟩

/-- Fuel-driven scanning loop of `strings.ReplaceAll`. -/
def replaceLoop (pat rep : List Char) : Nat → List Char → List Char
  | _, [] => []
  | 0, s => s
  | fuel + 1, c :: rest =>
    if pat.isPrefixOf (c :: rest) then
      rep ++ replaceLoop pat rep fuel (List.drop pat.length (c :: rest))
    else c :: replaceLoop pat rep fuel rest

/-- Go `strings.ReplaceAll` for a non-empty pattern (the only way the
embedded code calls it; Go additionally interleaves the replacement
between characters when the pattern is empty). -/
def stringReplace (s pat rep : String) : String :=
  if pat = "" then s
  else String.mk (replaceLoop pat.data rep.data (s.data.length + 1) s.data)

/-- Substitution of the three placeholders `text/template` receives in
`generateCode` (model.go:3910-3926).  The template engine is embedded as
direct placeholder substitution, faithful for the placeholder-only
templates the application ships; only emptiness of the result is used by
any theorem. -/
def renderTemplate (code shortName fullName pid : String) : String :=
  stringReplace
    (stringReplace (stringReplace code "\x7b\x7b.SecretName\x7d\x7d" shortName)
      "\x7b\x7b.FullSecretName\x7d\x7d" fullName)
    "\x7b\x7b.ProjectID\x7d\x7d" pid

/-- `generateCode` (model.go:3899-3927). -/
def Model.generateCode (m : Model) (templateIdx : Int) : String :=
  if templateIdx ≥ (m.config.templates.length : Int) ∨ m.selectedSecret = none then ""
  else
    let tpl := m.config.templates.getD templateIdx.toNat default
    let name := m.selectedSecret.getD ""
    let parts := stringSplit name m.config.folderSeparator
    let shortName := parts.getLastD ""
    renderTemplate tpl.code shortName name m.config.projectID

/-- `updateList` (model.go:2785-2895).  The `textinput` manipulations of
the `/`, `n` branches act on widget state outside the embedding.  Go's
`m.displayItems[m.cursor]` indexing is totalized with `getD`. -/
def Model.updateList (m : Model) (k : String) : Model × List Eff :=
  if m.loading then (m, [])
  else
    let visibleHeight : Int := if m.height - 10 < 5 then 5 else m.height - 10
    match k with
    | "up" | "k" =>
      if m.cursor > 0 then
        let c := m.cursor - 1
        ({ m with cursor := c, listOffset := if c < m.listOffset then c else m.listOffset }, [])
      else (m, [])
    | "down" | "j" =>
      if m.cursor < (m.displayItems.length : Int) - 1 then
        let c := m.cursor + 1
        ({ m with
            cursor := c,
            listOffset := if c ≥ m.listOffset + visibleHeight then c - visibleHeight + 1
              else m.listOffset }, [])
      else (m, [])
    | "g" => ({ m with cursor := 0, listOffset := 0 }, [])
    | "G" =>
      if m.displayItems.length > 0 then
        let c : Int := (m.displayItems.length : Int) - 1
        ({ m with
            cursor := c,
            listOffset := if c ≥ visibleHeight then c - visibleHeight + 1 else m.listOffset }, [])
      else (m, [])
    | "enter" | "l" =>
      if m.displayItems.length > 0 then
        let item := m.displayItems.getD m.cursor.toNat default
        if item.isFolder then
          let m1 := { m with currentPath := m.currentPath ++ [item.name] }.updateDisplayItems
          ({ m1 with cursor := 0, listOffset := 0 }, [])
        else
          match item.secret with
          | some s =>
            ({ m with
                selectedSecret := some s,
                view := .detail,
                versionCursor := 0,
                loading := true,
                loadingMsg := "Loading versions..." },
              [.loadVersionsTask s])
          | none => (m, [])
      else (m, [])
    | "backspace" | "h" | "esc" =>
      if m.currentPath ≠ [] then
        let m1 := { m with currentPath := m.currentPath.dropLast }.updateDisplayItems
        ({ m1 with cursor := 0, listOffset := 0 }, [])
      else if m.filterText ≠ "" then
        ({ m with filterText := "" }.updateDisplayItems, [])
      else (m, [])
    | "/" => ({ m with view := .filter }, [.blink])
    | "n" =>
      ({ m with
          view := .create,
          createLocationIdx := if m.config.secretLocations.length > 0 then 1 else 0,
          createAddingLoc := false,
          createEditorMode := false }, [.blink])
    | "d" =>
      if m.displayItems.length > 0 ∧ (m.displayItems.getD m.cursor.toNat default).isFolder = false then
        ({ m with
            selectedSecret := (m.displayItems.getD m.cursor.toNat default).secret,
            view := .delete,
            deleteConfirm := false }, [])
      else (m, [])
    | "ctrl+r" => ({ m with loading := true, loadingMsg := "Refreshing..." }, [.loadSecretsTask])
    | "ctrl+s" => ({ m with view := .configMenu, configMenuCursor := 0 }, [])
    | "q" => (m, [.quit])
    | _ => (m, [])

/-- `updateDetail` (model.go:2897-2951). -/
def Model.updateDetail (m : Model) (k : String) : Model × List Eff :=
  if m.loading then (m, [])
  else
    match k with
    | "up" | "k" =>
      (if m.versionCursor > 0 then { m with versionCursor := m.versionCursor - 1 } else m, [])
    | "down" | "j" =>
      (if m.versionCursor < (m.versions.length : Int) - 1 then
        { m with versionCursor := m.versionCursor + 1 } else m, [])
    | "esc" | "backspace" | "h" =>
      ({ m with view := .list, selectedSecret := none, versions := [] }.zeroReleaseInline, [])
    | "r" =>
      if m.versions.length > 0 then
        let version := m.versions.getD m.versionCursor.toNat ""
        ({ m with loading := true, loadingMsg := "Accessing secret..." },
          [.accessSecretTask (m.selectedSecret.getD "") version])
      else (m, [])
    | "c" | "y" =>
      if m.versions.length > 0 then
        let version := m.versions.getD m.versionCursor.toNat ""
        ({ m with loading := true, loadingMsg := "Copying to clipboard..." },
          [.copySecretTask (m.selectedSecret.getD "") version])
      else (m, [])
    | "a" => ({ m with view := .addVersion }, [.blink])
    | "g" => ({ m with view := .generate, templateCursor := 0, generatedCode := "" }, [])
    | "d" => ({ m with view := .delete, deleteConfirm := false }, [])
    | "q" => (m, [.quit])
    | _ => (m, [])

/-- `updateReveal` (model.go:3777-3813).  The OS clipboard write is
embedded as infallible (its error branch only sets a status message). -/
def Model.updateReveal (m : Model) (now : Int) (k : String) : Model × List Eff :=
  match k with
  | "esc" | "backspace" | "enter" | "r" =>
    ({ m.zeroReleaseInline with view := .detail, revealVersion := "" }, [])
  | "c" | "y" =>
    if (m.revealedValue.getD []).length > 0 then
      let written := Eff.clipboardWrite (m.getRevealedValueString)
      if m.config.clipboard.autoClear ∧ m.config.clipboard.timeoutSeconds > 0 then
        ({ m with
            clipboardClearAt := now + m.config.clipboard.timeoutSeconds,
            clipboardActive := true,
            statusMsg := "Copied! Auto-clear in " ++
              toString m.config.clipboard.timeoutSeconds ++ "s",
            statusErr := false }, [written, .clipboardTickTask])
      else
        ({ m with statusMsg := "Secret value copied to clipboard", statusErr := false },
          [written])
    else (m, [])
  | _ => (m, [])

/-- `updateGenerate` (model.go:3217-3253).  Note the `c`/`y` branch checks
only `AutoClear`, not `TimeoutSeconds > 0`. -/
def Model.updateGenerate (m : Model) (now : Int) (k : String) : Model × List Eff :=
  match k with
  | "up" | "k" =>
    (if m.templateCursor > 0 then { m with templateCursor := m.templateCursor - 1 } else m, [])
  | "down" | "j" =>
    (if m.templateCursor < (m.config.templates.length : Int) - 1 then
      { m with templateCursor := m.templateCursor + 1 } else m, [])
  | "enter" => ({ m with generatedCode := m.generateCode m.templateCursor }, [])
  | "c" | "y" =>
    if m.generatedCode ≠ "" then
      let written := Eff.clipboardWrite m.generatedCode
      if m.config.clipboard.autoClear then
        ({ m with
            statusMsg := "Code copied to clipboard!",
            statusErr := false,
            clipboardClearAt := now + m.config.clipboard.timeoutSeconds,
            clipboardActive := true }, [written, .clipboardTickTask])
      else
        ({ m with statusMsg := "Code copied to clipboard!", statusErr := false }, [written])
    else (m, [])
  | "esc" | "backspace" | "h" => ({ m with view := .detail, generatedCode := "" }, [])
  | _ => (m, [])

/-- `updateLocked` (model.go:3646-3663). -/
def Model.updateLocked (m : Model) (now : Int) (k : String) : Model × List Eff :=
  match k with
  | "enter" | " " =>
    ({ m with
        sessionLocked := false,
        view := m.lockedPrevView,
        lastActivity := now,
        statusMsg := "Session unlocked",
        statusErr := false },
      if m.auditEnabled then [.audit (.sessionUnlock m.config.projectID)] else [])
  | "q" => (m, [.quit])
  | _ => (m, [])

/-- `Model.Update` (model.go:2489-2758).  `now` is the current time in
seconds.  Handlers of the project-prompt, create, add-version,
delete-confirm, config and audit-log screens, of the project-switch view
and of the filter view are embedded as the identity on this state: in the
source they manipulate text-input/textarea widgets and screen-local
cursors, change `view`/`statusMsg`/`config` fields, and emit
create/delete/add-version/initialize tasks, but none of them ever touches
the clipboard timer, the vault buffer, the session lock, or the display
list that the theorems below are about (verified against
model.go:2760-2783, 2953-3215, 3255-3644, 3665-3775). -/
def update (now : Int) (m : Model) (msg : Msg) : Model × List Eff :=
  match msg with
  | .key k =>
    let m := { m with lastActivity := now }
    if k = "ctrl+c" then (m, [.quit])
    else if m.sessionLocked then m.updateLocked now k
    else if k = "ctrl+p" ∧ m.view ≠ View.projectPrompt ∧ m.view ≠ View.projectSwitch ∧
        m.view ≠ View.locked then
      ({ m with
          projectSwitchPrevView := m.view,
          view := .projectSwitch,
          projectSwitchCursor := 0 }, [.blink])
    else
      match m.view with
      | .list => m.updateList k
      | .detail => m.updateDetail k
      | .generate => m.updateGenerate now k
      | .reveal => m.updateReveal now k
      | .locked => m.updateLocked now k
      | _ => (m, [])
  | .mouse => ({ m with lastActivity := now }, [])
  | .windowSize w h => ({ m with width := w, height := h }, [])
  | .clientInitialized err =>
    match err with
    | some e => ({ m with statusMsg := "Error: " ++ e, statusErr := true, loading := false }, [])
    | none =>
      ({ m with loading := true, loadingMsg := "Loading secrets..." },
        (if m.auditEnabled then [.audit (.sessionStart m.config.projectID)] else []) ++
          [.loadSecretsTask])
  | .secretsLoaded secrets err =>
    let m := { m with loading := false }
    match err with
    | some e =>
      ({ m with statusMsg := "Error loading secrets: " ++ e, statusErr := true },
        if m.auditEnabled then [.audit (.secretList m.config.projectID 0 .failure e)] else [])
    | none =>
      let m1 := ({ m with secrets := secrets }).rebuildFolderTree.updateDisplayItems
      ({ m1 with
          statusMsg := "Loaded " ++ toString secrets.length ++ " secrets",
          statusErr := false },
        if m.auditEnabled then
          [.audit (.secretList m.config.projectID (secrets.length : Int) .success "")]
        else [])
  | .versionsLoaded versions err =>
    let m := { m with loading := false }
    match err with
    | some e =>
      ({ m with statusMsg := "Error loading versions: " ++ e, statusErr := true }, [])
    | none => ({ m with versions := versions }, [])
  | .secretCreated name err =>
    let m := { m with loading := false }
    match err with
    | some e =>
      ({ m with statusMsg := "Error creating secret: " ++ e, statusErr := true },
        if m.auditEnabled then
          [.audit (.secretCreate m.config.projectID name .failure e)] else [])
    | none =>
      ({ m with statusMsg := "Secret created successfully", statusErr := false, view := .list },
        (if m.auditEnabled then
          [.audit (.secretCreate m.config.projectID name .success "")] else []) ++
          [.loadSecretsTask])
  | .secretDeleted name err =>
    let m := { m with loading := false }
    match err with
    | some e =>
      ({ m with statusMsg := "Error deleting secret: " ++ e, statusErr := true },
        if m.auditEnabled then
          [.audit (.secretDelete m.config.projectID name .failure e)] else [])
    | none =>
      ({ m with
          statusMsg := "Secret deleted successfully",
          statusErr := false,
          view := .list,
          selectedSecret := none },
        (if m.auditEnabled then
          [.audit (.secretDelete m.config.projectID name .success "")] else []) ++
          [.loadSecretsTask])
  | .versionAdded version err =>
    let m := { m with loading := false }
    match err with
    | some e =>
      ({ m with statusMsg := "Error adding version: " ++ e, statusErr := true },
        if m.auditEnabled ∧ m.selectedSecret ≠ none then
          [.audit (.versionAdd m.config.projectID (m.selectedSecret.getD "") "" .failure e)]
        else [])
    | none =>
      ({ m with
          statusMsg := "Version " ++ version ++ " added successfully",
          statusErr := false,
          view := .detail },
        (if m.auditEnabled ∧ m.selectedSecret ≠ none then
          [.audit (.versionAdd m.config.projectID (m.selectedSecret.getD "") version .success "")]
        else []) ++ [.loadVersionsTask (m.selectedSecret.getD "")])
  | .secretValue secretName value version err =>
    let m := { m with loading := false }
    match err with
    | some e =>
      ({ m with statusMsg := "Error accessing secret: " ++ e, statusErr := true },
        if m.auditEnabled then
          [.audit (.secretReveal m.config.projectID secretName version .failure e)] else [])
    | none =>
      ({ m.setRevealedValue value with revealVersion := version, view := .reveal },
        if m.auditEnabled then
          [.audit (.secretReveal m.config.projectID secretName version .success "")] else [])
  | .secretCopied secretName version err =>
    let m := { m with loading := false }
    match err with
    | some e =>
      ({ m with statusMsg := "Error copying: " ++ e, statusErr := true },
        if m.auditEnabled then
          [.audit (.secretCopy m.config.projectID secretName version .failure e)] else [])
    | none =>
      let auditEffs :=
        if m.auditEnabled then
          [Eff.audit (.secretCopy m.config.projectID secretName version .success "")] else []
      if m.config.clipboard.autoClear ∧ (0 : Int) < m.config.clipboard.timeoutSeconds then
        ({ m with
            clipboardClearAt := now + m.config.clipboard.timeoutSeconds,
            clipboardActive := true,
            statusMsg := "Copied! Auto-clear in " ++
              toString m.config.clipboard.timeoutSeconds ++ "s",
            statusErr := false }, auditEffs ++ [.clipboardTickTask])
      else
        ({ m with statusMsg := "Secret value copied to clipboard", statusErr := false },
          auditEffs)
  | .clipboardTick =>
    if m.clipboardActive = false then (m, [])
    else
      let remaining := m.clipboardClearAt - now
      if remaining ≤ 0 then (m, [.clearClipboardTask])
      else
        ({ m with
            statusMsg := "Clipboard will clear in " ++ toString remaining ++ "s",
            statusErr := false }, [.clipboardTickTask])
  | .clipboardCleared =>
    ({ m with clipboardActive := false, statusMsg := "Clipboard cleared", statusErr := false },
      if m.auditEnabled then [.audit .clipboardClear] else [])
  | .sessionTimeout =>
    let locking :=
      m.config.session.inactivityTimeout > 0 ∧ m.config.session.lockOnTimeout = true ∧
        now - m.lastActivity > 60 * m.config.session.inactivityTimeout ∧
        m.sessionLocked = false
    if locking then
      let m1 := ({ m with
        sessionLocked := true,
        lockedPrevView := m.view,
        view := .locked }).clearRevealedValue
      let clipEffs := if m1.clipboardActive then [Eff.clipboardClearNow] else []
      let m2 := if m1.clipboardActive then { m1 with clipboardActive := false } else m1
      let auditEffs :=
        if m2.auditEnabled then
          [Eff.audit (.sessionLock m2.config.projectID "inactivity_timeout")] else []
      (m2, clipEffs ++ auditEffs ++ [.sessionTickTask])
    else (m, [.sessionTickTask])

/-- Number of self-rescheduling clipboard tick tasks among one step's
effects (`clipboardTickCmd()` return values, model.go:2438). -/
def countTicks (effs : List Eff) : Nat :=
  (effs.filter fun e => e = Eff.clipboardTickTask).length

/-- Scheduler bookkeeping for the tick chains: a `clipboardTick` message
consumes one pending tick task, and every `clipboardTickTask` effect adds
one.  The `Nat` component counts tick tasks pending in the runtime. -/
def stepPending (s : Model × Nat) (ev : Int × Msg) : Model × Nat :=
  let m2 := update ev.1 s.1 ev.2
  (m2.1, s.2 - (if ev.2 = Msg.clipboardTick then 1 else 0) + countTicks m2.2)

/-- Run a timestamped message trace, tracking pending tick tasks. -/
def runPending (s : Model × Nat) (evs : List (Int × Msg)) : Model × Nat :=
  evs.foldl stepPending s

/-- The completion messages whose handling carries an error
(model.go:2582-2699 error branches). -/
def isErrorCompletion : Msg → Bool
  | .secretsLoaded _ (some _) => true
  | .versionsLoaded _ (some _) => true
  | .secretCreated _ (some _) => true
  | .secretDeleted _ (some _) => true
  | .versionAdded _ (some _) => true
  | .secretValue _ _ _ (some _) => true
  | .secretCopied _ _ (some _) => true
  | _ => false

/-- A plain configuration used by concrete witnesses. -/
def defaultConfig : Config where
  projectID := "proj"
  folderSeparator := "/"
  clipboard := { autoClear := true, timeoutSeconds := 30 }
  session := { inactivityTimeout := 5, lockOnTimeout := true }
  templates := []
  secretLocations := []

/-- A plain controller state used by concrete witnesses. -/
def baseModel : Model where
  config := defaultConfig
  view := .list
  width := 80
  height := 24
  secrets := []
  folderTree := default
  currentPath := []
  displayItems := []
  cursor := 0
  listOffset := 0
  filterText := ""
  selectedSecret := none
  versions := []
  versionCursor := 0
  revealedValue := none
  revealVersion := ""
  createLocationIdx := 0
  createAddingLoc := false
  createEditorMode := false
  templateCursor := 0
  generatedCode := ""
  configMenuCursor := 0
  deleteConfirm := false
  statusMsg := ""
  statusErr := false
  loading := false
  loadingMsg := ""
  clipboardClearAt := 0
  clipboardActive := false
  auditEnabled := true
  lastActivity := 0
  sessionLocked := false
  lockedPrevView := .list
  projectSwitchPrevView := .list
  projectSwitchCursor := 0
  releasedBuffers := []

end GoSecret

namespace GoSecret.Audit

/-- `audit.EventType` (audit.go:17-38), with its wire names. -/
inductive EventType where
  | secretList
  | secretAccess
  | secretReveal
  | secretCopy
  | secretCreate
  | secretDelete
  | versionAdd
  | versionList
  | configChange
  | projectSwitch
  | sessionStart
  | sessionEnd
  | clipboardClear
deriving DecidableEq, Repr

def EventType.str : EventType → String
  | .secretList => "SECRET_LIST"
  | .secretAccess => "SECRET_ACCESS"
  | .secretReveal => "SECRET_REVEAL"
  | .secretCopy => "SECRET_COPY"
  | .secretCreate => "SECRET_CREATE"
  | .secretDelete => "SECRET_DELETE"
  | .versionAdd => "VERSION_ADD"
  | .versionList => "VERSION_LIST"
  | .configChange => "CONFIG_CHANGE"
  | .projectSwitch => "PROJECT_SWITCH"
  | .sessionStart => "SESSION_START"
  | .sessionEnd => "SESSION_END"
  | .clipboardClear => "CLIPBOARD_CLEAR"

/-- `audit.EventResult` (audit.go:41-46). -/
inductive EventResult where
  | success
  | failure
deriving DecidableEq, Repr

def EventResult.str : EventResult → String
  | .success => "SUCCESS"
  | .failure => "FAILURE"

/-- `audit.Event` (audit.go:49-59).  `details` embeds the Go
`map[string]string`: Go serializes map keys sorted, and every caller
passes at most three fixed keys, so an association list in serialization
order is faithful. -/
structure Event where
  timestamp : String
  eventType : EventType
  result : EventResult
  user : String
  projectID : String
  secretName : String
  version : String
  details : List (String × String)
  error : String
deriving DecidableEq, Repr

def lbrace : Char := Char.ofNat 123

def rbrace : Char := Char.ofNat 125

def hexDigit (n : Nat) : Char :=
  "0123456789abcdef".data.getD n '0'

/-- `encoding/json` string-character escaping (default encoder, HTML
escaping on): quote, backslash and control characters are escaped, as are
the HTML-sensitive characters and U+2028/U+2029. -/
def escChar (c : Char) : List Char :=
  if c = '"' then ['\\', '"']
  else if c = '\\' then ['\\', '\\']
  else if c = '\n' then ['\\', 'n']
  else if c = '\r' then ['\\', 'r']
  else if c = '\t' then ['\\', 't']
  else if c.toNat < 32 then
    ['\\', 'u', '0', '0', hexDigit (c.toNat / 16), hexDigit (c.toNat % 16)]
  else if c = '<' then ['\\', 'u', '0', '0', '3', 'c']
  else if c = '>' then ['\\', 'u', '0', '0', '3', 'e']
  else if c = '&' then ['\\', 'u', '0', '0', '2', '6']
  else if c.toNat = 8232 then ['\\', 'u', '2', '0', '2', '8']
  else if c.toNat = 8233 then ['\\', 'u', '2', '0', '2', '9']
  else [c]

def escape : List Char → List Char
  | [] => []
  | c :: t => escChar c ++ escape t

/-- A JSON string literal. -/
def quoteStr (s : String) : List Char :=
  '"' :: (escape s.data ++ ['"'])

/-- Comma-join serialized object members. -/
def joinComma : List (List Char) → List Char
  | [] => []
  | [f] => f
  | f :: g :: rest => f ++ ',' :: joinComma (g :: rest)

/-- One object member with a string value. -/
def jField (name value : String) : List Char :=
  quoteStr name ++ ':' :: quoteStr value

/-- One object member with an already-serialized value. -/
def jFieldRaw (name : String) (value : List Char) : List Char :=
  quoteStr name ++ ':' :: value

/-- A JSON object from serialized members. -/
def jObj (fields : List (List Char)) : List Char :=
  lbrace :: (joinComma fields ++ [rbrace])

/-- An optional (`omitempty`) string member. -/
def jOpt (name value : String) : List (List Char) :=
  if value = "" then [] else [jField name value]

/-- `json.Marshal` of an `audit.Event`, following the struct tags of
audit.go:49-59: `timestamp`, `event_type` and `result` always present,
the rest `omitempty`, fields in declaration order. -/
def marshalEvent (e : Event) : List Char :=
  jObj
    ([jField "timestamp" e.timestamp,
      jField "event_type" e.eventType.str,
      jField "result" e.result.str] ++
      jOpt "user" e.user ++
      jOpt "project_id" e.projectID ++
      jOpt "secret_name" e.secretName ++
      jOpt "version" e.version ++
      (if e.details = [] then []
        else [jFieldRaw "details" (jObj (e.details.map fun kv => jField kv.1 kv.2))]) ++
      jOpt "error" e.error)

def marshalString (e : Event) : String :=
  String.mk (marshalEvent e)

/-- `audit.Logger` (audit.go:62-70) restricted to the state `Log` and
rotation read: `hasFile` stands for `l.file != nil`; `written` is the
content of the active log file, `synced` the durably synced prefix;
`archived` collects rotated file contents, newest first.  File sizes are
measured in characters, which coincides with bytes for the ASCII record
framing. -/
structure Logger where
  enabled : Bool
  hasFile : Bool
  written : String
  synced : String
  userEmail : String
  maxSizeMB : Int
  archived : List String
deriving DecidableEq, Repr

/-- Fill in timestamp and actor when absent (audit.go:179-187);
`nowStr` is the RFC3339 rendering of the current UTC instant. -/
def fillEvent (l : Logger) (nowStr : String) (e : Event) : Event :=
  let e1 := if e.timestamp = "" then { e with timestamp := nowStr } else e
  if e1.user = "" ∧ l.userEmail ≠ "" then { e1 with user := l.userEmail } else e1

/-- `file.Write` followed by `file.Sync` (audit.go:196-203), with the OS
calls embedded as infallible. -/
def writeAndSync (l : Logger) (line : String) : Logger :=
  { l with written := l.written ++ line, synced := l.written ++ line }

/-- `rotateIfNeeded` + `rotate` (audit.go:347-394): below the size
threshold nothing happens; at or above it the active file is archived
under a timestamped name and a fresh file is opened. -/
def rotateIfNeeded (l : Logger) : Logger :=
  if l.hasFile = false then l
  else if (l.written.length : Int) < l.maxSizeMB * 1024 * 1024 then l
  else { l with archived := l.written :: l.archived, written := "", synced := "" }

/-- `Logger.Log` (audit.go:171-212).  Returns the new logger state and
the returned error (`none` = nil). -/
def Logger.log (l : Logger) (nowStr : String) (e : Event) : Logger × Option String :=
  if l.enabled = false ∨ l.hasFile = false then (l, none)
  else
    let e2 := fillEvent l nowStr e
    (rotateIfNeeded (writeAndSync l (marshalString e2 ++ "\n")), none)

end GoSecret.Audit

namespace GoSecret

/-! ## Supporting lemmas -/

lemma append_ne_empty (p e : String) (hp : p.data ≠ []) : p ++ e ≠ "" := by
  intro h
  apply hp
  have h2 : (p ++ e).data = "".data := by rw [h]
  simp [String.data_append] at h2
  exact h2.1

lemma zeroBytes_eq_zero (b : List Nat) : ∀ x ∈ zeroBytes b, x = 0 := by
  intro x hx
  rcases List.mem_map.1 hx with ⟨y, _, rfl⟩
  rfl

/-! ## C8 — vault clear -/

/-- C8: after `clearRevealedValue`, the previously held buffer was zeroed
byte for byte at the moment its reference was dropped, the vault holds
nothing, and `getRevealedValueString` returns the empty string. -/
theorem c8_vault_clear (m : Model) (b : List Nat) (hb : m.revealedValue = some b) :
    m.clearRevealedValue.revealedValue = none ∧
    m.clearRevealedValue.releasedBuffers = zeroBytes b :: m.releasedBuffers ∧
    (∀ x ∈ zeroBytes b, x = 0) ∧
    m.clearRevealedValue.getRevealedValueString = "" := by
  unfold Model.clearRevealedValue
  rw [hb]
  exact ⟨rfl, rfl, zeroBytes_eq_zero b, rfl⟩

/-- Witness for C8 at a concrete vault state. -/
theorem c8_vault_clear_witness :
    ({ baseModel with revealedValue := some [3, 4] } : Model).clearRevealedValue.revealedValue
        = none ∧
    ({ baseModel with revealedValue := some [3, 4] } : Model).clearRevealedValue.releasedBuffers
        = zeroBytes [3, 4] :: ({ baseModel with revealedValue := some [3, 4] } : Model).releasedBuffers ∧
    (∀ x ∈ zeroBytes [3, 4], x = 0) ∧
    ({ baseModel with revealedValue := some [3, 4] } : Model).clearRevealedValue.getRevealedValueString
        = "" :=
  c8_vault_clear { baseModel with revealedValue := some [3, 4] } [3, 4] rfl

/-! ## C6 — error completions -/

/-- C6: handling any completion message that carries an error sets a
non-empty error status (`statusErr = true`) and leaves the view
unchanged. -/
theorem c6_error_completions (now : Int) (m : Model) (msg : Msg)
    (herr : isErrorCompletion msg = true) :
    (update now m msg).1.view = m.view ∧
    (update now m msg).1.statusErr = true ∧
    (update now m msg).1.statusMsg ≠ "" := by
  cases msg with
  | secretsLoaded s err =>
    cases err with
    | none => simp [isErrorCompletion] at herr
    | some e => exact ⟨rfl, rfl, append_ne_empty _ e (by decide)⟩
  | versionsLoaded v err =>
    cases err with
    | none => simp [isErrorCompletion] at herr
    | some e => exact ⟨rfl, rfl, append_ne_empty _ e (by decide)⟩
  | secretCreated n err =>
    cases err with
    | none => simp [isErrorCompletion] at herr
    | some e => exact ⟨rfl, rfl, append_ne_empty _ e (by decide)⟩
  | secretDeleted n err =>
    cases err with
    | none => simp [isErrorCompletion] at herr
    | some e => exact ⟨rfl, rfl, append_ne_empty _ e (by decide)⟩
  | versionAdded v err =>
    cases err with
    | none => simp [isErrorCompletion] at herr
    | some e => exact ⟨rfl, rfl, append_ne_empty _ e (by decide)⟩
  | secretValue s val ver err =>
    cases err with
    | none => simp [isErrorCompletion] at herr
    | some e => exact ⟨rfl, rfl, append_ne_empty _ e (by decide)⟩
  | secretCopied s ver err =>
    cases err with
    | none => simp [isErrorCompletion] at herr
    | some e => exact ⟨rfl, rfl, append_ne_empty _ e (by decide)⟩
  | key k => simp [isErrorCompletion] at herr
  | mouse => simp [isErrorCompletion] at herr
  | windowSize w h => simp [isErrorCompletion] at herr
  | clientInitialized err => simp [isErrorCompletion] at herr
  | clipboardTick => simp [isErrorCompletion] at herr
  | clipboardCleared => simp [isErrorCompletion] at herr
  | sessionTimeout => simp [isErrorCompletion] at herr

/-- Witness for C6: a failed list load at a concrete state. -/
theorem c6_error_completions_witness :
    (update 0 baseModel (.secretsLoaded [] (some "boom"))).1.view = baseModel.view ∧
    (update 0 baseModel (.secretsLoaded [] (some "boom"))).1.statusErr = true ∧
    (update 0 baseModel (.secretsLoaded [] (some "boom"))).1.statusMsg ≠ "" :=
  c6_error_completions 0 baseModel (.secretsLoaded [] (some "boom")) rfl

/-! ## C7 — locked-session frame condition -/

/-- C7: while the session is locked, any key other than the unlock keys
leaves every embedded field unchanged except `lastActivity`, which is set
to the current time before dispatch. -/
theorem c7_locked_frame (now : Int) (m : Model) (k : String)
    (hlock : m.sessionLocked = true) (h1 : k ≠ "enter") (h2 : k ≠ " ") :
    (update now m (.key k)).1 = { m with lastActivity := now } := by
  show (update now m (.key k)).1 = { m with lastActivity := now }
  unfold update
  by_cases hc : k = "ctrl+c"
  · simp [hc]
  · simp only [hc, if_false, hlock, if_true]
    unfold Model.updateLocked
    split <;> simp_all

/-- Witness for C7 at a concrete locked state and a discarded key. -/
theorem c7_locked_frame_witness :
    (update 42 { baseModel with sessionLocked := true } (.key "j")).1 =
      { { baseModel with sessionLocked := true } with lastActivity := 42 } :=
  c7_locked_frame 42 { baseModel with sessionLocked := true } "j" rfl
    (by decide) (by decide)

end GoSecret

namespace GoSecret

/-! ## Session lock step (shared by C1 and C2) -/

lemma session_lock_step (now : Int) (m : Model)
    (hM : m.config.session.inactivityTimeout > 0)
    (hL : m.config.session.lockOnTimeout = true)
    (hid : now - m.lastActivity > 60 * m.config.session.inactivityTimeout)
    (hnl : m.sessionLocked = false) :
    (update now m .sessionTimeout).1.sessionLocked = true ∧
    (update now m .sessionTimeout).1.view = View.locked ∧
    (update now m .sessionTimeout).1.lockedPrevView = m.view ∧
    (update now m .sessionTimeout).1.revealedValue = none ∧
    (∀ b, m.revealedValue = some b →
      (update now m .sessionTimeout).1.releasedBuffers = zeroBytes b :: m.releasedBuffers) ∧
    (update now m .sessionTimeout).1.clipboardActive = false ∧
    (m.clipboardActive = true → Eff.clipboardClearNow ∈ (update now m .sessionTimeout).2) ∧
    (m.auditEnabled = true →
      Eff.audit (.sessionLock m.config.projectID "inactivity_timeout") ∈
        (update now m .sessionTimeout).2) := by
  have hcond : m.config.session.inactivityTimeout > 0 ∧
      m.config.session.lockOnTimeout = true ∧
      now - m.lastActivity > 60 * m.config.session.inactivityTimeout ∧
      m.sessionLocked = false := ⟨hM, hL, hid, hnl⟩
  simp only [update, if_pos hcond]
  cases hrv : m.revealedValue with
  | none =>
    cases hca : m.clipboardActive <;> cases hae : m.auditEnabled <;>
      simp_all [Model.clearRevealedValue]
  | some b =>
    cases hca : m.clipboardActive <;> cases hae : m.auditEnabled <;>
      simp_all [Model.clearRevealedValue]

end GoSecret

namespace GoSecret

/-! ## C2 — inactivity lock -/

/-- C2: with a positive inactivity timeout `M` (minutes) and
lock-on-timeout enabled, the first periodic check after the threshold
(elapsed time strictly beyond `60 * M` seconds, no intervening activity)
locks: it records the prior view, moves to the locked view, clears the
vault buffer (zeroing it into the released list), clears the clipboard if
a copy timer is pending, and calls `LogSessionLock` (the `SESSION_LOCK`
audit event) with reason `inactivity_timeout`; and every periodic check
that finds the session already locked returns the state unchanged with
only the rescheduling tick, emitting no further lock event. -/
theorem c2_session_lock :
    (∀ (now : Int) (m : Model),
      m.config.session.inactivityTimeout > 0 →
      m.config.session.lockOnTimeout = true →
      now - m.lastActivity > 60 * m.config.session.inactivityTimeout →
      m.sessionLocked = false →
      (update now m .sessionTimeout).1.sessionLocked = true ∧
      (update now m .sessionTimeout).1.view = View.locked ∧
      (update now m .sessionTimeout).1.lockedPrevView = m.view ∧
      (update now m .sessionTimeout).1.revealedValue = none ∧
      (∀ b, m.revealedValue = some b →
        (update now m .sessionTimeout).1.releasedBuffers = zeroBytes b :: m.releasedBuffers) ∧
      (update now m .sessionTimeout).1.clipboardActive = false ∧
      (m.clipboardActive = true → Eff.clipboardClearNow ∈ (update now m .sessionTimeout).2) ∧
      (m.auditEnabled = true →
        Eff.audit (.sessionLock m.config.projectID "inactivity_timeout") ∈
          (update now m .sessionTimeout).2)) ∧
    (∀ (now : Int) (m : Model), m.sessionLocked = true →
      update now m .sessionTimeout = (m, [Eff.sessionTickTask])) := by
  constructor
  · exact fun now m hM hL hid hnl => session_lock_step now m hM hL hid hnl
  · intro now m hl
    simp only [update]
    split
    · next h => exact absurd h.2.2.2 (by simp [hl])
    · rfl

/-- A state idle in the reveal view with a pending copy timer. -/
def c2Model : Model :=
  { baseModel with view := .reveal, revealedValue := some [9], clipboardActive := true }

/-- Witness for C2: locking fires at `now = 301` (timeout 5 min, last
activity 0), and a check on an already locked state is a no-op. -/
theorem c2_session_lock_witness :
    (update 301 c2Model .sessionTimeout).1.sessionLocked = true ∧
    (update 301 c2Model .sessionTimeout).1.view = View.locked ∧
    (update 301 c2Model .sessionTimeout).1.lockedPrevView = c2Model.view ∧
    (update 301 c2Model .sessionTimeout).1.revealedValue = none ∧
    (update 301 c2Model .sessionTimeout).1.releasedBuffers =
      zeroBytes [9] :: c2Model.releasedBuffers ∧
    (update 301 c2Model .sessionTimeout).1.clipboardActive = false ∧
    Eff.clipboardClearNow ∈ (update 301 c2Model .sessionTimeout).2 ∧
    Eff.audit (.sessionLock c2Model.config.projectID "inactivity_timeout") ∈
      (update 301 c2Model .sessionTimeout).2 ∧
    update 7 { baseModel with sessionLocked := true } .sessionTimeout =
      ({ baseModel with sessionLocked := true }, [Eff.sessionTickTask]) := by
  have h := c2_session_lock.1 301 c2Model (by decide) rfl (by decide) rfl
  exact ⟨h.1, h.2.1, h.2.2.1, h.2.2.2.1, h.2.2.2.2.1 [9] rfl, h.2.2.2.2.2.1,
    h.2.2.2.2.2.2.1 rfl, h.2.2.2.2.2.2.2 rfl,
    c2_session_lock.2 7 { baseModel with sessionLocked := true } rfl⟩

end GoSecret

namespace GoSecret

/-! ## C10 — display rebuild and cursor bounds -/

/-- A state whose current path no longer resolves in the rebuilt tree. -/
def c10Model : Model :=
  { baseModel with
    folderTree := buildFolderTree "/" ["b"],
    currentPath := ["x"],
    cursor := 3,
    listOffset := 2 }

/-- C10 counterexample: when a path segment is absent, the rebuild leaves
the display list empty but keeps the old cursor (3 ≠ 0) and does not
reset the scroll offset (2 ≠ 0), contradicting the claim that after
every rebuild the cursor is 0 on an empty list and the offset is reset. -/
theorem c10_counterexample :
    c10Model.updateDisplayItems.displayItems = [] ∧
    c10Model.updateDisplayItems.cursor = 3 ∧
    c10Model.updateDisplayItems.listOffset = 2 := ⟨rfl, rfl, rfl⟩

/-- C10 amended: when the current path resolves, the rebuild clamps the
cursor into bounds (0 on an empty list) and resets the scroll offset, so
indexing the displayed items at the cursor succeeds; when a path segment
is absent, the display list is emptied but cursor and offset are left
unchanged — indexing stays safe because the list-view `enter` handler
does nothing on an empty display list. -/
theorem c10_rebuild_amended :
    (∀ (m : Model) (items : List FolderItem),
      displayOf m.folderTree m.currentPath m.filterText = some items →
      m.updateDisplayItems.displayItems = items ∧
      m.updateDisplayItems.listOffset = 0 ∧
      (items ≠ [] → 0 ≤ m.updateDisplayItems.cursor ∧
        m.updateDisplayItems.cursor < (items.length : Int) ∧
        (m.updateDisplayItems.displayItems.get? m.updateDisplayItems.cursor.toNat).isSome
          = true) ∧
      (items = [] → m.updateDisplayItems.cursor = 0)) ∧
    (∀ m : Model,
      displayOf m.folderTree m.currentPath m.filterText = none →
      m.updateDisplayItems.displayItems = [] ∧
      m.updateDisplayItems.cursor = m.cursor ∧
      m.updateDisplayItems.listOffset = m.listOffset) ∧
    (∀ m : Model, m.displayItems = [] → m.loading = false →
      m.updateList "enter" = (m, [])) := by
  refine ⟨?_, ?_, ?_⟩
  · intro m items h
    unfold Model.updateDisplayItems
    rw [h]
    refine ⟨rfl, rfl, ?_, ?_⟩
    · intro hne
      have hlen : 0 < items.length := List.length_pos.2 hne
      constructor
      · dsimp only
        split <;> split <;> omega
      constructor
      · dsimp only
        split <;> split <;> omega
      · dsimp only
        have hcur : (if (if m.cursor ≥ (items.length : Int) then (items.length : Int) - 1
            else m.cursor) < 0 then 0
            else if m.cursor ≥ (items.length : Int) then (items.length : Int) - 1
            else m.cursor).toNat < items.length := by
          split <;> split <;> omega
        cases hg : items.get? (if (if m.cursor ≥ (items.length : Int) then
            (items.length : Int) - 1 else m.cursor) < 0 then 0
            else if m.cursor ≥ (items.length : Int) then (items.length : Int) - 1
            else m.cursor).toNat with
        | none => exact absurd (List.get?_eq_none.1 hg) (by omega)
        | some it => rfl
    · intro he
      subst he
      dsimp only
      simp only [List.length_nil, Nat.cast_zero]
      split <;> split <;> omega
  · intro m h
    unfold Model.updateDisplayItems
    rw [h]
    exact ⟨rfl, rfl, rfl⟩
  · intro m h hload
    unfold Model.updateList
    simp [hload, h]

/-- Witness for C10 amended: rebuild at the root of the tree of `§8`'s
example, and the empty-list `enter` no-op. -/
theorem c10_rebuild_amended_witness :
    ({ baseModel with folderTree := buildFolderTree "/" ["a/x", "a/y", "b"] } :
        Model).updateDisplayItems.displayItems =
      sortItems ((buildFolderTree "/" ["a/x", "a/y", "b"]).children.map
          Prod.snd) ∧
    ({ baseModel with folderTree := buildFolderTree "/" ["a/x", "a/y", "b"] } :
        Model).updateDisplayItems.listOffset = 0 ∧
    baseModel.updateList "enter" = (baseModel, []) := by
  have h1 := c10_rebuild_amended.1
    { baseModel with folderTree := buildFolderTree "/" ["a/x", "a/y", "b"] }
    (sortItems ((buildFolderTree "/" ["a/x", "a/y", "b"]).children.map Prod.snd))
    rfl
  exact ⟨h1.1, h1.2.1, c10_rebuild_amended.2.2 baseModel rfl rfl⟩

end GoSecret

namespace GoSecret

/-! ## C1 — zeroing of the revealed buffer -/

/-- A state revealing a secret byte. -/
def c1Model : Model := { baseModel with view := .reveal, revealedValue := some [7] }

/-- C1 counterexample: the global project-switch combination (`ctrl+p`)
moves the view away from the reveal view, yet the revealed buffer is
neither zeroed nor released — it still holds its secret byte and nothing
was added to the released list (model.go:2510-2518 does not touch
`revealedValue`). -/
theorem c1_counterexample :
    (update 1 c1Model (.key "ctrl+p")).1.view = View.projectSwitch ∧
    (update 1 c1Model (.key "ctrl+p")).1.revealedValue = some [7] ∧
    (update 1 c1Model (.key "ctrl+p")).1.releasedBuffers = [] :=
  ⟨rfl, rfl, rfl⟩

/-- C1 amended: every buffer replacement, every reveal-view exit key,
every detail-view exit key and the session lock zero the previous
buffer's bytes before the reference is released — but the global
project-switch combination does not: it leaves the buffer held and
untouched. -/
theorem c1_zeroize_amended :
    (∀ (now : Int) (m : Model) (s ver : String) (val b : List Nat),
      m.revealedValue = some b →
      (update now m (.secretValue s val ver none)).1.revealedValue = some val ∧
      (update now m (.secretValue s val ver none)).1.releasedBuffers =
        zeroBytes b :: m.releasedBuffers) ∧
    (∀ (now : Int) (m : Model) (k : String) (b : List Nat),
      m.view = View.reveal → m.sessionLocked = false →
      (k = "esc" ∨ k = "backspace" ∨ k = "enter" ∨ k = "r") →
      m.revealedValue = some b →
      (update now m (.key k)).1.revealedValue = none ∧
      (update now m (.key k)).1.releasedBuffers = zeroBytes b :: m.releasedBuffers ∧
      (update now m (.key k)).1.view = View.detail) ∧
    (∀ (now : Int) (m : Model) (k : String) (b : List Nat),
      m.view = View.detail → m.sessionLocked = false → m.loading = false →
      (k = "esc" ∨ k = "backspace" ∨ k = "h") →
      m.revealedValue = some b →
      (update now m (.key k)).1.revealedValue = none ∧
      (update now m (.key k)).1.releasedBuffers = zeroBytes b :: m.releasedBuffers ∧
      (update now m (.key k)).1.view = View.list) ∧
    (∀ (now : Int) (m : Model) (b : List Nat),
      m.config.session.inactivityTimeout > 0 →
      m.config.session.lockOnTimeout = true →
      now - m.lastActivity > 60 * m.config.session.inactivityTimeout →
      m.sessionLocked = false → m.revealedValue = some b →
      (update now m .sessionTimeout).1.revealedValue = none ∧
      (update now m .sessionTimeout).1.releasedBuffers = zeroBytes b :: m.releasedBuffers) ∧
    (∀ (b : List Nat), ∀ x ∈ zeroBytes b, x = 0) ∧
    (∀ (now : Int) (m : Model),
      m.view = View.reveal → m.sessionLocked = false →
      (update now m (.key "ctrl+p")).1.view = View.projectSwitch ∧
      (update now m (.key "ctrl+p")).1.revealedValue = m.revealedValue ∧
      (update now m (.key "ctrl+p")).1.releasedBuffers = m.releasedBuffers) := by
  refine ⟨?_, ?_, ?_, ?_, ?_, ?_⟩
  · intro now m s ver val b hb
    simp [update, Model.setRevealedValue, Model.clearRevealedValue, hb]
  · intro now m k b hv hs hk hb
    rcases hk with rfl | rfl | rfl | rfl <;>
      simp [update, hv, hs, Model.updateReveal, Model.zeroReleaseInline,
        Model.clearRevealedValue, hb]
  · intro now m k b hv hs hload hk hb
    rcases hk with rfl | rfl | rfl <;>
      simp [update, hv, hs, hload, Model.updateDetail, Model.zeroReleaseInline,
        Model.clearRevealedValue, hb]
  · intro now m b hM hL hid hnl hb
    have h := session_lock_step now m hM hL hid hnl
    exact ⟨h.2.2.2.1, h.2.2.2.2.1 b hb⟩
  · exact fun b => zeroBytes_eq_zero b
  · intro now m hv hs
    simp [update, hv, hs]

/-- Witness for C1 amended: leaving the reveal view with `esc` zeroes and
releases the buffer; `ctrl+p` from the same state does not. -/
theorem c1_zeroize_amended_witness :
    (update 2 c1Model (.key "esc")).1.revealedValue = none ∧
    (update 2 c1Model (.key "esc")).1.releasedBuffers =
      zeroBytes [7] :: c1Model.releasedBuffers ∧
    (update 2 c1Model (.key "esc")).1.view = View.detail ∧
    (update 2 c1Model (.key "ctrl+p")).1.revealedValue = c1Model.revealedValue := by
  have h := c1_zeroize_amended.2.1 2 c1Model "esc" [7] rfl rfl (Or.inl rfl) rfl
  exact ⟨h.1, h.2.1, h.2.2, (c1_zeroize_amended.2.2.2.2.2 2 c1Model rfl rfl).2.1⟩

end GoSecret

namespace GoSecret

/-! ## C5 — prefix collisions in the namespace tree -/

lemma withChildren_children (n : FolderItem) (c : List (String × FolderItem)) :
    (n.withChildren c).children = c := by cases n; rfl

lemma insertParts_self (sep s : String) (parts : List String) :
    ∀ (rest : List String) (j : Nat) (node : FolderItem),
      (insertParts sep s parts rest j node).name = node.name ∧
      (insertParts sep s parts rest j node).isFolder = node.isFolder ∧
      (insertParts sep s parts rest j node).secret = node.secret := by
  intro rest
  induction rest with
  | nil => intro j node; exact ⟨rfl, rfl, rfl⟩
  | cons p rest ih =>
    intro j node
    simp only [insertParts]
    split
    · exact ih (j + 1) node
    · cases node; exact ⟨rfl, rfl, rfl⟩

lemma lookup_append_left (l l2 : List (String × FolderItem)) (q : String) (c : FolderItem)
    (h : l.lookup q = some c) : (l ++ l2).lookup q = some c := by
  induction l with
  | nil => simp [List.lookup] at h
  | cons kv t ih =>
    obtain ⟨k, v⟩ := kv
    simp only [List.lookup, List.cons_append] at h ⊢
    cases hqk : (q == k) with
    | true => rw [hqk] at h; exact h
    | false => rw [hqk] at h; exact ih h

lemma assocUpdate_cons_self (k : String) (v : FolderItem)
    (t : List (String × FolderItem)) (f : FolderItem → FolderItem) :
    assocUpdate ((k, v) :: t) k f = (k, f v) :: assocUpdate t k f := by
  simp [assocUpdate]

lemma assocUpdate_cons_ne (k p : String) (v : FolderItem)
    (t : List (String × FolderItem)) (f : FolderItem → FolderItem) (h : k ≠ p) :
    assocUpdate ((k, v) :: t) p f = (k, v) :: assocUpdate t p f := by
  simp [assocUpdate, h]

lemma lookup_cons_self (k : String) (v : FolderItem) (t : List (String × FolderItem)) :
    List.lookup k ((k, v) :: t) = some v := by
  simp [List.lookup]

lemma lookup_cons_ne (q k : String) (v : FolderItem) (t : List (String × FolderItem))
    (h : (q == k) = false) : List.lookup q ((k, v) :: t) = List.lookup q t := by
  simp [List.lookup, h]

lemma lookup_assocUpdate_self (l : List (String × FolderItem)) (p : String)
    (f : FolderItem → FolderItem) (c : FolderItem)
    (h : l.lookup p = some c) : (assocUpdate l p f).lookup p = some (f c) := by
  induction l with
  | nil => simp [List.lookup] at h
  | cons kv t ih =>
    obtain ⟨k, v⟩ := kv
    by_cases hkp : k = p
    · subst hkp
      rw [lookup_cons_self] at h
      rw [assocUpdate_cons_self, lookup_cons_self, Option.some_inj.1 h]
    · have hpk : (p == k) = false := by
        rw [beq_eq_false_iff_ne]
        exact fun he => hkp he.symm
      rw [lookup_cons_ne _ _ _ _ hpk] at h
      rw [assocUpdate_cons_ne _ _ _ _ _ hkp, lookup_cons_ne _ _ _ _ hpk]
      exact ih h

lemma lookup_assocUpdate_ne (l : List (String × FolderItem)) (p q : String)
    (f : FolderItem → FolderItem) (hq : q ≠ p) :
    (assocUpdate l p f).lookup q = l.lookup q := by
  induction l with
  | nil => rfl
  | cons kv t ih =>
    obtain ⟨k, v⟩ := kv
    by_cases hkp : k = p
    · subst hkp
      have hqk : (q == k) = false := beq_eq_false_iff_ne.2 hq
      rw [assocUpdate_cons_self, lookup_cons_ne _ _ _ _ hqk, lookup_cons_ne _ _ _ _ hqk]
      exact ih
    · cases hqk : (q == k) with
      | true =>
        have hqk2 : q = k := eq_of_beq hqk
        subst hqk2
        rw [assocUpdate_cons_ne _ _ _ _ _ hkp, lookup_cons_self, lookup_cons_self]
      | false =>
        rw [assocUpdate_cons_ne _ _ _ _ _ hkp, lookup_cons_ne _ _ _ _ hqk,
          lookup_cons_ne _ _ _ _ hqk]
        exact ih

lemma insertParts_preserves (sep s : String) (parts : List String) :
    ∀ (rest : List String) (j : Nat) (node : FolderItem) (q : String) (c : FolderItem),
      node.children.lookup q = some c →
      ∃ d, (insertParts sep s parts rest j node).children.lookup q = some d ∧
        d.name = c.name ∧ d.isFolder = c.isFolder ∧ d.secret = c.secret := by
  intro rest
  induction rest with
  | nil => intro j node q c h; exact ⟨c, h, rfl, rfl, rfl⟩
  | cons p rest ih =>
    intro j node q c h
    simp only [insertParts]
    split
    · exact ih (j + 1) node q c h
    · rw [withChildren_children]
      by_cases hqp : q = p
      · subst hqp
        have hsome : (node.children.lookup q).isSome = true := by rw [h]; rfl
        rw [if_pos hsome]
        obtain ⟨h1, h2, h3⟩ := insertParts_self sep s parts rest (j + 1) c
        exact ⟨insertParts sep s parts rest (j + 1) c,
          lookup_assocUpdate_self node.children q _ c h, h1, h2, h3⟩
      · rw [lookup_assocUpdate_ne _ _ _ _ hqp]
        split
        · exact ⟨c, h, rfl, rfl, rfl⟩
        · exact ⟨c, lookup_append_left _ _ _ _ h, rfl, rfl, rfl⟩

/-- C5 counterexample: with insertion order `["a", "a/x"]` — the strict
prefix first — the shared name `a` is *not* marked as a folder: the node
keeps `isFolder = false` and its leaf back-reference, refuting the
claimed insertion-order independence (buildFolderTree never re-marks an
existing node, model.go:3832-3844). -/
theorem c5_counterexample :
    ((buildFolderTree "/" ["a", "a/x"]).children.map Prod.fst = ["a"]) ∧
    (((buildFolderTree "/" ["a", "a/x"]).children.lookup "a").map FolderItem.isFolder =
      some false) ∧
    (((buildFolderTree "/" ["a", "a/x"]).children.lookup "a").map FolderItem.secret =
      some (some "a")) :=
  ⟨rfl, rfl, rfl⟩

/-- C5 amended: the shared name gets exactly one node, but whether it is
a folder is decided by whichever identifier reached it first and is never
re-marked: a later insertion preserves an existing node's name, folder
flag and secret back-reference.  When the longer identifier comes first,
the node is a folder and the colliding leaf marking is skipped; when the
strict prefix comes first, the node stays a leaf (and still receives the
longer identifier's segments as children). -/
theorem c5_prefix_collision_amended :
    (∀ (sep s : String) (parts rest : List String) (j : Nat) (node : FolderItem)
      (q : String) (c : FolderItem),
      node.children.lookup q = some c →
      ∃ d, (insertParts sep s parts rest j node).children.lookup q = some d ∧
        d.name = c.name ∧ d.isFolder = c.isFolder ∧ d.secret = c.secret) ∧
    ((buildFolderTree "/" ["a/x", "a"]).children.map Prod.fst = ["a"]) ∧
    (((buildFolderTree "/" ["a/x", "a"]).children.lookup "a").map FolderItem.isFolder =
      some true) ∧
    (((buildFolderTree "/" ["a/x", "a"]).children.lookup "a").map FolderItem.secret =
      some none) ∧
    ((buildFolderTree "/" ["a", "a/x"]).children.map Prod.fst = ["a"]) ∧
    (((buildFolderTree "/" ["a", "a/x"]).children.lookup "a").map FolderItem.isFolder =
      some false) ∧
    (((buildFolderTree "/" ["a", "a/x"]).children.lookup "a").map FolderItem.secret =
      some (some "a")) :=
  ⟨fun sep s parts rest j node q c h => insertParts_preserves sep s parts rest j node q c h,
    rfl, rfl, rfl, rfl, rfl, rfl⟩

/-- Witness for C5 amended: inserting `a/x` into the tree that already
holds the leaf `a` preserves that node's leaf marking. -/
theorem c5_prefix_collision_amended_witness :
    ∃ d, (insertParts "/" "a/x" ["a", "x"] ["a", "x"] 0
        (buildFolderTree "/" ["a"])).children.lookup "a" = some d ∧
      d.name = FolderItem.name (.node "a" "a" false (some "a") [] 0) ∧
      d.isFolder = FolderItem.isFolder (.node "a" "a" false (some "a") [] 0) ∧
      d.secret = FolderItem.secret (.node "a" "a" false (some "a") [] 0) :=
  c5_prefix_collision_amended.1 "/" "a/x" ["a", "x"] ["a", "x"] 0
    (buildFolderTree "/" ["a"]) "a" (.node "a" "a" false (some "a") [] 0) rfl

end GoSecret

namespace GoSecret

/-! ## Clipboard-timer step lemmas (C3, C4) -/

lemma updateDisplayItems_clearAt (m : Model) :
    m.updateDisplayItems.clipboardClearAt = m.clipboardClearAt := by
  unfold Model.updateDisplayItems
  split <;> rfl

lemma updateDisplayItems_active (m : Model) :
    m.updateDisplayItems.clipboardActive = m.clipboardActive := by
  unfold Model.updateDisplayItems
  split <;> rfl

lemma updateList_clearAt (m : Model) (k : String) :
    (m.updateList k).1.clipboardClearAt = m.clipboardClearAt := by
  unfold Model.updateList
  repeat' split
  all_goals try simp [updateDisplayItems_clearAt]
  all_goals try split_ifs
  all_goals try (cases hx : (m.displayItems[m.cursor.toNat]?.getD default).secret)
  all_goals simp_all [updateDisplayItems_clearAt]

lemma updateList_active (m : Model) (k : String) :
    (m.updateList k).1.clipboardActive = m.clipboardActive := by
  unfold Model.updateList
  repeat' split
  all_goals try simp [updateDisplayItems_active]
  all_goals try split_ifs
  all_goals try (cases hx : (m.displayItems[m.cursor.toNat]?.getD default).secret)
  all_goals simp_all [updateDisplayItems_active]

lemma updateList_noClear (m : Model) (k : String) :
    Eff.clearClipboardTask ∉ (m.updateList k).2 := by
  unfold Model.updateList
  repeat' split
  all_goals try simp
  all_goals try split_ifs
  all_goals try (cases hx : (m.displayItems[m.cursor.toNat]?.getD default).secret)
  all_goals simp_all

lemma updateList_ticks (m : Model) (k : String) :
    countTicks (m.updateList k).2 = 0 := by
  unfold Model.updateList
  repeat' split
  all_goals try simp [countTicks]
  all_goals try split_ifs
  all_goals try (cases hx : (m.displayItems[m.cursor.toNat]?.getD default).secret)
  all_goals simp_all [countTicks]

lemma updateDetail_clearAt (m : Model) (k : String) :
    (m.updateDetail k).1.clipboardClearAt = m.clipboardClearAt := by
  unfold Model.updateDetail
  repeat' split
  all_goals try (cases hx : m.revealedValue)
  all_goals simp_all [Model.zeroReleaseInline, Model.clearRevealedValue]

lemma updateDetail_active (m : Model) (k : String) :
    (m.updateDetail k).1.clipboardActive = m.clipboardActive := by
  unfold Model.updateDetail
  repeat' split
  all_goals try (cases hx : m.revealedValue)
  all_goals simp_all [Model.zeroReleaseInline, Model.clearRevealedValue]

lemma updateDetail_noClear (m : Model) (k : String) :
    Eff.clearClipboardTask ∉ (m.updateDetail k).2 := by
  unfold Model.updateDetail
  repeat' split
  all_goals simp_all

lemma updateDetail_ticks (m : Model) (k : String) :
    countTicks (m.updateDetail k).2 = 0 := by
  unfold Model.updateDetail
  repeat' split
  all_goals simp_all [countTicks]

lemma updateLocked_clearAt (now : Int) (m : Model) (k : String) :
    (m.updateLocked now k).1.clipboardClearAt = m.clipboardClearAt := by
  unfold Model.updateLocked
  repeat' split
  all_goals rfl

lemma updateLocked_active (now : Int) (m : Model) (k : String) :
    (m.updateLocked now k).1.clipboardActive = m.clipboardActive := by
  unfold Model.updateLocked
  repeat' split
  all_goals rfl

lemma updateLocked_noClear (now : Int) (m : Model) (k : String) :
    Eff.clearClipboardTask ∉ (m.updateLocked now k).2 := by
  unfold Model.updateLocked
  repeat' split
  all_goals simp_all

lemma updateLocked_ticks (now : Int) (m : Model) (k : String) :
    countTicks (m.updateLocked now k).2 = 0 := by
  unfold Model.updateLocked
  repeat' split
  all_goals simp_all [countTicks]

lemma updateReveal_clearAt (m : Model) (now : Int) (k : String) :
    (m.updateReveal now k).1.clipboardClearAt = m.clipboardClearAt ∨
      (m.updateReveal now k).1.clipboardClearAt = now + m.config.clipboard.timeoutSeconds := by
  unfold Model.updateReveal
  repeat' split
  all_goals try (cases hx : m.revealedValue)
  all_goals simp_all [Model.zeroReleaseInline, Model.clearRevealedValue]

lemma updateReveal_noClear (m : Model) (now : Int) (k : String) :
    Eff.clearClipboardTask ∉ (m.updateReveal now k).2 := by
  unfold Model.updateReveal
  repeat' split
  all_goals simp_all

lemma updateReveal_ticks (m : Model) (now : Int) (k : String) :
    countTicks (m.updateReveal now k).2 ≤ 1 := by
  unfold Model.updateReveal
  repeat' split
  all_goals simp_all [countTicks]

lemma updateGenerate_clearAt (m : Model) (now : Int) (k : String) :
    (m.updateGenerate now k).1.clipboardClearAt = m.clipboardClearAt ∨
      (m.updateGenerate now k).1.clipboardClearAt = now + m.config.clipboard.timeoutSeconds := by
  unfold Model.updateGenerate
  repeat' split
  all_goals simp_all

lemma updateGenerate_noClear (m : Model) (now : Int) (k : String) :
    Eff.clearClipboardTask ∉ (m.updateGenerate now k).2 := by
  unfold Model.updateGenerate
  repeat' split
  all_goals simp_all

lemma updateGenerate_ticks (m : Model) (now : Int) (k : String) :
    countTicks (m.updateGenerate now k).2 ≤ 1 := by
  unfold Model.updateGenerate
  repeat' split
  all_goals simp_all [countTicks]

end GoSecret

namespace GoSecret

/-- Per-step deadline evolution: one `Update` either leaves
`clipboardClearAt` alone or sets it to `now + TimeoutSeconds` (the copy
branches, model.go:2703, 3241, 3800). -/
lemma update_clearAt (now : Int) (m : Model) (msg : Msg) :
    (update now m msg).1.clipboardClearAt = m.clipboardClearAt ∨
      (update now m msg).1.clipboardClearAt = now + m.config.clipboard.timeoutSeconds := by
  cases msg with
  | key k =>
    simp only [update]
    split
    · exact Or.inl rfl
    · split
      · exact Or.inl (updateLocked_clearAt now _ k)
      · split
        · exact Or.inl rfl
        · split
          · exact Or.inl (updateList_clearAt _ k)
          · exact Or.inl (updateDetail_clearAt _ k)
          · exact updateGenerate_clearAt _ now k
          · exact updateReveal_clearAt _ now k
          · exact Or.inl (updateLocked_clearAt now _ k)
          · exact Or.inl rfl
  | mouse => exact Or.inl rfl
  | windowSize w h => exact Or.inl rfl
  | clientInitialized err => cases err <;> exact Or.inl rfl
  | secretsLoaded s err =>
    cases err
    · exact Or.inl (by simp [update, updateDisplayItems_clearAt, Model.rebuildFolderTree])
    · exact Or.inl rfl
  | versionsLoaded v err => cases err <;> exact Or.inl rfl
  | secretCreated n err => cases err <;> exact Or.inl rfl
  | secretDeleted n err => cases err <;> exact Or.inl rfl
  | versionAdded v err => cases err <;> exact Or.inl rfl
  | secretValue s val ver err =>
    cases err
    · cases hrv : m.revealedValue <;>
        simp [update, Model.setRevealedValue, Model.clearRevealedValue, hrv]
    · exact Or.inl rfl
  | secretCopied s v err =>
    cases err
    · simp only [update]
      split
      · exact Or.inr rfl
      · exact Or.inl rfl
    · exact Or.inl rfl
  | clipboardTick =>
    simp only [update]
    split
    · exact Or.inl rfl
    · split
      · exact Or.inl rfl
      · exact Or.inl rfl
  | clipboardCleared => exact Or.inl rfl
  | sessionTimeout =>
    simp only [update]
    split
    · cases hrv : m.revealedValue <;> cases hca : m.clipboardActive <;>
        simp [Model.clearRevealedValue, hrv, hca]
    · exact Or.inl rfl

/-- Per-step clear-task emission: one `Update` emits `clearClipboardCmd`
only from the tick handler, with the timer active and the deadline
reached (model.go:2713-2719). -/
lemma update_clearEmit (now : Int) (m : Model) (msg : Msg)
    (h : Eff.clearClipboardTask ∈ (update now m msg).2) :
    msg = Msg.clipboardTick ∧ m.clipboardActive = true ∧ m.clipboardClearAt ≤ now := by
  cases msg with
  | key k =>
    exfalso
    simp only [update] at h
    split at h
    · simp at h
    · split at h
      · exact updateLocked_noClear now _ k h
      · split at h
        · simp at h
        · split at h
          · exact updateList_noClear _ k h
          · exact updateDetail_noClear _ k h
          · exact updateGenerate_noClear _ now k h
          · exact updateReveal_noClear _ now k h
          · exact updateLocked_noClear now _ k h
          · simp at h
  | mouse => simp [update] at h
  | windowSize w hh => simp [update] at h
  | clientInitialized err =>
    cases err <;> cases hae : m.auditEnabled <;> simp [update, hae] at h
  | secretsLoaded s err =>
    cases err <;> cases hae : m.auditEnabled <;> simp [update, hae] at h
  | versionsLoaded v err => cases err <;> simp [update] at h
  | secretCreated n err =>
    cases err <;> cases hae : m.auditEnabled <;> simp [update, hae] at h
  | secretDeleted n err =>
    cases err <;> cases hae : m.auditEnabled <;> simp [update, hae] at h
  | versionAdded v err =>
    cases err <;> cases hae : m.auditEnabled <;> cases hss : m.selectedSecret <;>
      simp [update, hae, hss] at h
  | secretValue s val ver err =>
    cases err <;> cases hae : m.auditEnabled <;> simp [update, hae] at h
  | secretCopied s v err =>
    cases err with
    | none =>
      exfalso
      simp only [update] at h
      split at h <;> cases hae : m.auditEnabled <;> simp [hae] at h
    | some e =>
      exfalso
      cases hae : m.auditEnabled <;> simp [update, hae] at h
  | clipboardTick =>
    simp only [update] at h
    split at h
    · simp at h
    · next hact =>
      split at h
      · next hrem =>
        refine ⟨rfl, ?_, by omega⟩
        simpa using hact
      · simp at h
  | clipboardCleared =>
    cases hae : m.auditEnabled <;> simp [update, hae] at h
  | sessionTimeout =>
    exfalso
    simp only [update] at h
    split at h
    · cases hrv : m.revealedValue <;> cases hca : m.clipboardActive <;>
        cases hae : m.auditEnabled <;>
        simp [Model.clearRevealedValue, hrv, hca, hae] at h
    · simp at h

end GoSecret

namespace GoSecret

/-! ## C3 — clipboard auto-clear timing -/

/-- C3: (1) a clear-clipboard task is emitted only by the tick handler,
only while the timer is active and only once `now` has reached the
deadline — never before; (2) the deadline only ever changes to
`now + TimeoutSeconds`, the time of the step that changed it; (3) a
successful copy completion with auto-clear on and `T > 0` *replaces* the
deadline with `now + T` (so after a second copy the deadline counts from
the second copy) and emits no clear task itself; (4) a tick strictly
before the deadline only updates the countdown status and reschedules.
Together: a clear task fires at or after `T` seconds from the most
recent copy and never before. -/
theorem c3_clipboard_deadline :
    (∀ (now : Int) (m : Model) (msg : Msg),
      Eff.clearClipboardTask ∈ (update now m msg).2 →
      msg = Msg.clipboardTick ∧ m.clipboardActive = true ∧ m.clipboardClearAt ≤ now) ∧
    (∀ (now : Int) (m : Model) (msg : Msg),
      (update now m msg).1.clipboardClearAt ≠ m.clipboardClearAt →
      (update now m msg).1.clipboardClearAt = now + m.config.clipboard.timeoutSeconds) ∧
    (∀ (now : Int) (m : Model) (s v : String),
      m.config.clipboard.autoClear = true → 0 < m.config.clipboard.timeoutSeconds →
      (update now m (.secretCopied s v none)).1.clipboardClearAt =
        now + m.config.clipboard.timeoutSeconds ∧
      (update now m (.secretCopied s v none)).1.clipboardActive = true ∧
      Eff.clearClipboardTask ∉ (update now m (.secretCopied s v none)).2) ∧
    (∀ (now : Int) (m : Model), m.clipboardActive = true → now < m.clipboardClearAt →
      update now m .clipboardTick =
        ({ m with
            statusMsg := "Clipboard will clear in " ++
              toString (m.clipboardClearAt - now) ++ "s",
            statusErr := false }, [Eff.clipboardTickTask])) := by
  refine ⟨?_, ?_, ?_, ?_⟩
  · exact update_clearEmit
  · intro now m msg hne
    rcases update_clearAt now m msg with h | h
    · exact absurd h hne
    · exact h
  · intro now m s v hA hT
    have hcond : m.config.clipboard.autoClear = true ∧
        (0 : Int) < m.config.clipboard.timeoutSeconds := ⟨hA, hT⟩
    cases hae : m.auditEnabled <;>
      simp [update, hae, hcond, if_pos hcond]
  · intro now m hact hlt
    simp only [update]
    rw [if_neg (by simp [hact])]
    rw [if_neg (by omega)]

/-- Two successful copies, the second at `t = 5` before the first
deadline (`T = 30`): the deadline after both is `35 = 5 + 30`. -/
def c3Model : Model :=
  (runPending (baseModel, 0)
    [(0, .secretCopied "s" "1" none), (5, .secretCopied "s" "1" none)]).1

/-- Witness for C3: in the two-copy run, the deadline is `35` (counted
from the second copy); the tick at `10` does not clear but reschedules;
the tick at `35` emits the clear task, and conjunct (1) applied to that
emission certifies the timer was active with the deadline reached. -/
theorem c3_clipboard_deadline_witness :
    c3Model.clipboardClearAt = 35 ∧
    update 10 c3Model .clipboardTick =
      ({ c3Model with
          statusMsg := "Clipboard will clear in " ++ toString (25 : Int) ++ "s",
          statusErr := false }, [Eff.clipboardTickTask]) ∧
    (Msg.clipboardTick = Msg.clipboardTick ∧ c3Model.clipboardActive = true ∧
      c3Model.clipboardClearAt ≤ 35) ∧
    ((update 0 baseModel (.secretCopied "s" "1" none)).1.clipboardClearAt =
      0 + baseModel.config.clipboard.timeoutSeconds) := by
  refine ⟨rfl, ?_, ?_, ?_⟩
  · have h := c3_clipboard_deadline.2.2.2 10 c3Model rfl (by decide)
    simpa using h
  · exact c3_clipboard_deadline.1 35 c3Model .clipboardTick (by decide)
  · exact (c3_clipboard_deadline.2.2.1 0 baseModel "s" "1" rfl (by decide)).1

/-! ## C4 — tick-task multiplicity -/

/-- C4 counterexample: a second successful copy completing at `t = 5`,
while the first copy's tick chain is still pending, starts another
self-rescheduling tick task: after the two copies two tick tasks are
pending at once, contradicting the claim that two self-rescheduling
clipboard tick tasks never coexist (model.go:2700-2709 returns
`clipboardTickCmd()` unconditionally, even when `clipboardActive` is
already true). -/
theorem c4_counterexample :
    (runPending (baseModel, 0)
      [(0, .secretCopied "s" "1" none), (5, .secretCopied "s" "1" none)]).2 = 2 := rfl

/-- C4 amended: a new copy replaces the deadline rather than stacking
deadlines, and each step emits at most one new tick task, but a copy that
completes while a timer is live does add a second concurrently ticking
task; the coexisting chains are benign because every chain consults the
single shared deadline and active flag — a tick finding the timer
inactive emits nothing, and a tick at or past the deadline hands over to
the single clear task. -/
theorem c4_single_deadline_amended :
    (∀ (now : Int) (m : Model) (s v : String),
      m.config.clipboard.autoClear = true → 0 < m.config.clipboard.timeoutSeconds →
      (update now m (.secretCopied s v none)).1.clipboardClearAt =
        now + m.config.clipboard.timeoutSeconds ∧
      countTicks (update now m (.secretCopied s v none)).2 = 1) ∧
    (∀ (now : Int) (m : Model) (msg : Msg), countTicks (update now m msg).2 ≤ 1) ∧
    (∀ (now : Int) (m : Model), m.clipboardActive = false →
      update now m .clipboardTick = (m, [])) ∧
    (∀ (now : Int) (m : Model), m.clipboardActive = true → m.clipboardClearAt ≤ now →
      update now m .clipboardTick = (m, [Eff.clearClipboardTask])) := by
  refine ⟨?_, ?_, ?_, ?_⟩
  · intro now m s v hA hT
    have hcond : m.config.clipboard.autoClear = true ∧
        (0 : Int) < m.config.clipboard.timeoutSeconds := ⟨hA, hT⟩
    cases hae : m.auditEnabled <;>
      simp [update, hae, hcond, if_pos hcond, countTicks]
  · intro now m msg
    cases msg with
    | key k =>
      simp only [update]
      split
      · simp [countTicks]
      · split
        · exact (updateLocked_ticks now _ k).le.trans (by omega)
        · split
          · simp [countTicks]
          · split
            · exact (updateList_ticks _ k).le.trans (by omega)
            · exact (updateDetail_ticks _ k).le.trans (by omega)
            · exact updateGenerate_ticks _ now k
            · exact updateReveal_ticks _ now k
            · exact (updateLocked_ticks now _ k).le.trans (by omega)
            · simp [countTicks]
    | mouse => simp [update, countTicks]
    | windowSize w h => simp [update, countTicks]
    | clientInitialized err =>
      cases err <;> cases hae : m.auditEnabled <;> simp [update, hae, countTicks]
    | secretsLoaded s err =>
      cases err <;> cases hae : m.auditEnabled <;> simp [update, hae, countTicks]
    | versionsLoaded v err => cases err <;> simp [update, countTicks]
    | secretCreated n err =>
      cases err <;> cases hae : m.auditEnabled <;> simp [update, hae, countTicks]
    | secretDeleted n err =>
      cases err <;> cases hae : m.auditEnabled <;> simp [update, hae, countTicks]
    | versionAdded v err =>
      cases err <;> cases hae : m.auditEnabled <;> cases hss : m.selectedSecret <;>
        simp [update, hae, hss, countTicks]
    | secretValue s val ver err =>
      cases err <;> cases hae : m.auditEnabled <;>
        simp [update, hae, countTicks, Model.setRevealedValue, Model.clearRevealedValue]
    | secretCopied s v err =>
      cases err with
      | none =>
        simp only [update]
        split <;> cases hae : m.auditEnabled <;> simp [hae, countTicks]
      | some e =>
        cases hae : m.auditEnabled <;> simp [update, hae, countTicks]
    | clipboardTick =>
      simp only [update]
      split
      · simp [countTicks]
      · split <;> simp [countTicks]
    | clipboardCleared =>
      cases hae : m.auditEnabled <;> simp [update, hae, countTicks]
    | sessionTimeout =>
      simp only [update]
      split
      · cases hrv : m.revealedValue <;> cases hca : m.clipboardActive <;>
          cases hae : m.auditEnabled <;>
          simp [Model.clearRevealedValue, hrv, hca, hae, countTicks]
      · simp [countTicks]
  · intro now m hact
    simp [update, hact]
  · intro now m hact hle
    simp only [update]
    rw [if_neg (by simp [hact])]
    rw [if_pos (by omega)]

/-- Witness for C4 amended: the first copy in the fresh state emits
exactly one tick task and sets the deadline; a tick on an inactive timer
does nothing; a tick at the deadline emits the clear task. -/
theorem c4_single_deadline_amended_witness :
    ((update 0 baseModel (.secretCopied "s" "1" none)).1.clipboardClearAt =
      0 + baseModel.config.clipboard.timeoutSeconds ∧
      countTicks (update 0 baseModel (.secretCopied "s" "1" none)).2 = 1) ∧
    update 9 baseModel .clipboardTick = (baseModel, []) ∧
    update 35 c3Model .clipboardTick = (c3Model, [Eff.clearClipboardTask]) :=
  ⟨c4_single_deadline_amended.1 0 baseModel "s" "1" rfl (by decide),
    c4_single_deadline_amended.2.2.1 9 baseModel rfl,
    c4_single_deadline_amended.2.2.2 35 c3Model (by decide) (by decide)⟩

end GoSecret

namespace GoSecret.Audit

/-! ## C9 — the audit log write path -/

lemma getD_ne_nl (l : List Char) (d : Char) (hd : d ≠ '\n')
    (hl : ∀ c ∈ l, c ≠ '\n') (n : Nat) : l.getD n d ≠ '\n' := by
  induction l generalizing n with
  | nil => simpa [List.getD] using hd
  | cons c t ih =>
    cases n with
    | zero => simpa using hl c (by simp)
    | succ k => simpa using ih (fun x hx => hl x (by simp [hx])) k

lemma hexDigit_ne_nl (n : Nat) : hexDigit n ≠ '\n' :=
  getD_ne_nl _ _ (by decide) (by decide) n

set_option maxHeartbeats 1600000 in
lemma escChar_ne_nl (c : Char) : '\n' ∉ escChar c := by
  unfold escChar
  split_ifs with h1 h2 h3 h4 h5 h6 h7 h8 h9 h10 h11 <;> intro hm
  · exact absurd hm (by decide)
  · exact absurd hm (by decide)
  · exact absurd hm (by decide)
  · exact absurd hm (by decide)
  · exact absurd hm (by decide)
  · simp only [List.mem_cons, List.not_mem_nil, or_false] at hm
    rcases hm with h | h | h | h | h | h
    · exact absurd h (by decide)
    · exact absurd h (by decide)
    · exact absurd h (by decide)
    · exact absurd h (by decide)
    · exact hexDigit_ne_nl _ h.symm
    · exact hexDigit_ne_nl _ h.symm
  · exact absurd hm (by decide)
  · exact absurd hm (by decide)
  · exact absurd hm (by decide)
  · exact absurd hm (by decide)
  · exact absurd hm (by decide)
  · simp only [List.mem_singleton] at hm
    exact h3 hm.symm

lemma escape_ne_nl (s : List Char) : '\n' ∉ escape s := by
  induction s with
  | nil => simp [escape]
  | cons c t ih =>
    intro hm
    rcases List.mem_append.1 hm with h | h
    · exact escChar_ne_nl c h
    · exact ih h

lemma quoteStr_ne_nl (s : String) : '\n' ∉ quoteStr s := by
  intro hm
  unfold quoteStr at hm
  rcases List.mem_cons.1 hm with h | h
  · exact absurd h (by decide)
  · rcases List.mem_append.1 h with h | h
    · exact escape_ne_nl _ h
    · simp only [List.mem_singleton] at h
      exact absurd h (by decide)

lemma jField_ne_nl (n v : String) : '\n' ∉ jField n v := by
  intro hm
  unfold jField at hm
  rcases List.mem_append.1 hm with h | h
  · exact quoteStr_ne_nl n h
  · rcases List.mem_cons.1 h with h | h
    · exact absurd h (by decide)
    · exact quoteStr_ne_nl v h

lemma joinComma_ne_nl (l : List (List Char)) (hl : ∀ f ∈ l, '\n' ∉ f) :
    '\n' ∉ joinComma l := by
  induction l with
  | nil => simp [joinComma]
  | cons f rest ih =>
    cases rest with
    | nil => simpa [joinComma] using hl f (by simp)
    | cons g rest2 =>
      intro hm
      unfold joinComma at hm
      rcases List.mem_append.1 hm with h | h
      · exact hl f (by simp) h
      · rcases List.mem_cons.1 h with h | h
        · exact absurd h (by decide)
        · exact ih (fun x hx => hl x (List.mem_cons_of_mem f hx)) h

lemma jObj_ne_nl (fields : List (List Char)) (hl : ∀ f ∈ fields, '\n' ∉ f) :
    '\n' ∉ jObj fields := by
  intro hm
  unfold jObj at hm
  rcases List.mem_cons.1 hm with h | h
  · exact absurd h (by decide)
  · rcases List.mem_append.1 h with h | h
    · exact joinComma_ne_nl fields hl h
    · simp only [List.mem_singleton] at h
      exact absurd h (by decide)

lemma jOpt_mem (n v : String) (f : List Char) (hf : f ∈ jOpt n v) : f = jField n v := by
  unfold jOpt at hf
  split at hf
  · simp at hf
  · simpa using hf

lemma marshalEvent_ne_nl (e : Event) : '\n' ∉ marshalEvent e := by
  unfold marshalEvent
  apply jObj_ne_nl
  intro f hf
  simp only [List.append_assoc, List.mem_append, List.mem_cons, List.not_mem_nil,
    or_false] at hf
  rcases hf with (h | h | h) | h | h | h | h | h | h
  · subst h; exact jField_ne_nl _ _
  · subst h; exact jField_ne_nl _ _
  · subst h; exact jField_ne_nl _ _
  · rw [jOpt_mem _ _ _ h]; exact jField_ne_nl _ _
  · rw [jOpt_mem _ _ _ h]; exact jField_ne_nl _ _
  · rw [jOpt_mem _ _ _ h]; exact jField_ne_nl _ _
  · rw [jOpt_mem _ _ _ h]; exact jField_ne_nl _ _
  · revert h
    split
    · intro h; simp at h
    · intro h
      simp only [List.mem_singleton] at h
      subst h
      intro hm
      unfold jFieldRaw at hm
      rcases List.mem_append.1 hm with h | h
      · exact quoteStr_ne_nl _ h
      · rcases List.mem_cons.1 h with h | h
        · exact absurd h (by decide)
        · refine jObj_ne_nl _ ?_ h
          intro g hg
          rcases List.mem_map.1 hg with ⟨kv, _, rfl⟩
          exact jField_ne_nl _ _
  · rw [jOpt_mem _ _ _ h]; exact jField_ne_nl _ _

/-- C9: `Logger.Log` is a no-op returning no error when logging is
disabled or the file handle is unavailable; otherwise it returns no
error and its effect is exactly: fill in the timestamp (current UTC)
only when absent, fill in the actor only when absent (from the stored
user), serialize the event to a single line — the serialized record
contains no newline — append a trailing newline, write it after the
existing content, and sync everything written before returning (the
post-sync rotation check is outside the claim and kept explicit). -/
theorem c9_audit_log :
    (∀ (l : Logger) (nowStr : String) (e : Event),
      l.enabled = false ∨ l.hasFile = false → l.log nowStr e = (l, none)) ∧
    (∀ (l : Logger) (nowStr : String) (e : Event),
      l.enabled = true → l.hasFile = true →
      (l.log nowStr e).2 = none ∧
      (l.log nowStr e).1 =
        rotateIfNeeded
          (writeAndSync l (marshalString (fillEvent l nowStr e) ++ "\n"))) ∧
    (∀ (l : Logger) (line : String),
      (writeAndSync l line).written = l.written ++ line ∧
      (writeAndSync l line).synced = (writeAndSync l line).written) ∧
    (∀ (e : Event), '\n' ∉ marshalEvent e) ∧
    (∀ (l : Logger) (nowStr : String) (e : Event),
      (e.timestamp ≠ "" → (fillEvent l nowStr e).timestamp = e.timestamp) ∧
      (e.timestamp = "" → (fillEvent l nowStr e).timestamp = nowStr) ∧
      (e.user ≠ "" → (fillEvent l nowStr e).user = e.user) ∧
      (e.user = "" → l.userEmail ≠ "" → (fillEvent l nowStr e).user = l.userEmail) ∧
      (e.user = "" → l.userEmail = "" → (fillEvent l nowStr e).user = "")) := by
  refine ⟨?_, ?_, ?_, marshalEvent_ne_nl, ?_⟩
  · intro l nowStr e h
    unfold Logger.log
    rw [if_pos ?_]
    rcases h with h | h <;> simp [h]
  · intro l nowStr e he hf
    unfold Logger.log
    rw [if_neg (by simp [he, hf])]
    exact ⟨rfl, rfl⟩
  · intro l line
    exact ⟨rfl, rfl⟩
  · intro l nowStr e
    refine ⟨?_, ?_, ?_, ?_, ?_⟩
    · intro h
      unfold fillEvent
      rw [if_neg h]
      dsimp only
      split <;> rfl
    · intro h
      unfold fillEvent
      rw [if_pos h]
      dsimp only
      split <;> rfl
    · intro h
      unfold fillEvent
      split <;> simp [h]
    · intro h hu
      unfold fillEvent
      split <;> simp [h, hu]
    · intro h hu
      unfold fillEvent
      split <;> simp [h, hu]

/-- A concrete enabled logger and event for the C9 witness. -/
def wLogger : Logger :=
  { enabled := true, hasFile := true, written := "", synced := "",
    userEmail := "dev@example.com", maxSizeMB := 10, archived := [] }

/-- Witness for C9: the enabled-path equalities at a concrete logger and
event, and the no-op on a disabled logger. -/
theorem c9_audit_log_witness :
    (wLogger.log "2026-01-01T00:00:00Z"
        { timestamp := "", eventType := .secretReveal, result := .success, user := "",
          projectID := "p", secretName := "a/x", version := "1", details := [],
          error := "" }).2 = none ∧
    (wLogger.log "2026-01-01T00:00:00Z"
        { timestamp := "", eventType := .secretReveal, result := .success, user := "",
          projectID := "p", secretName := "a/x", version := "1", details := [],
          error := "" }).1 =
      rotateIfNeeded (writeAndSync wLogger
        (marshalString (fillEvent wLogger "2026-01-01T00:00:00Z"
          { timestamp := "", eventType := .secretReveal, result := .success, user := "",
            projectID := "p", secretName := "a/x", version := "1", details := [],
            error := "" }) ++ "\n")) ∧
    ({ wLogger with enabled := false } : Logger).log "t"
        { timestamp := "", eventType := .secretList, result := .failure, user := "",
          projectID := "", secretName := "", version := "", details := [],
          error := "boom" } = ({ wLogger with enabled := false }, none) := by
  have h := c9_audit_log.2.1 wLogger "2026-01-01T00:00:00Z"
    { timestamp := "", eventType := .secretReveal, result := .success, user := "",
      projectID := "p", secretName := "a/x", version := "1", details := [],
      error := "" } rfl rfl
  exact ⟨h.1, h.2,
    c9_audit_log.1 { wLogger with enabled := false } "t"
      { timestamp := "", eventType := .secretList, result := .failure, user := "",
        projectID := "", secretName := "", version := "", details := [],
        error := "boom" } (Or.inl rfl)⟩

end GoSecret.Audit
